import Mathlib

/-!
# Verification of the `forchecktoporov` ingestion core

A shallow embedding of `interplanetaryAPI/forchecktoporov/data_ingestion.py`
(together with the parts of `models.py` it relies on), and proofs of the
frozen specification claims about it.

Modelling conventions:
* Django model rows become Lean structures; primary keys (`uuid4`) are
  modelled by a monotone counter `nextId` in the store (only freshness and
  equality of ids matter to the claims).
* `timezone.now()` is a logical clock `clock` in the store, bumped whenever
  the code asks for the current time.
* Many-to-many through tables (`PeopleToFood`, `PeopleToFriend`, the tag
  table) are modelled as the per-row id lists `favourite_food`, `friends`,
  `tags` — each row's id is unique, so this is the same data as the through
  tables.
* Python dicts used as insertion-ordered maps are association lists; a dict
  built by possibly-overwriting assignment is read with `dget`, which
  returns the *last* binding, matching dict semantics.
* `uuid.UUID(s)` is modelled as the identity on the guid string: no claim
  depends on UUID canonicalisation, only on equality of guids.
* File contents arrive already JSON-parsed (lists of records); the md5
  fingerprint of a file is modelled by the parsed content itself — the
  claims need only that identical files yield identical digests.
* `Food.food_type` (the derived fruit/vegetable classification column) is
  not modelled: no frozen claim refers to it.
-/

namespace Forchecktoporov

abbrev ObjId := Nat
abbrev Time := Nat

/-! ## Django's `parse_datetime` and Python's `str.replace(' ', '')`

`ingest_people` parses the `registered` field with
`parse_datetime(person['registered'].replace(' ', ''))`.  Django's
`parse_datetime` matches the anchored regex

  (\d{4})-(\d{1,2})-(\d{1,2})[T ](\d{1,2}):(\d{1,2})
  (?::(\d{1,2})(?:[\.,](\d{1,6})\d{0,6})?)?(Z|[+-]\d{2}(?::?\d{2})?)?$

and returns `None` when the regex does not match.  In this regex every
bounded digit group is followed by a non-digit continuation, so the
backtracking semantics coincide with "take the maximal digit run and check
its length" — which is how the embedding below is written.  (Django
additionally range-checks the matched fields, raising `ValueError` instead
of returning `None` for e.g. month 13; no claim involves out-of-range
fields, so that check is not modelled.) -/

/-- A parsed datetime: the capture groups of Django's `datetime_re`.
`tz` is the offset in minutes east of UTC (`Z` = 0), or `none` when the
string carries no offset. -/
structure DT where
  year : Nat
  month : Nat
  day : Nat
  hour : Nat
  minute : Nat
  second : Nat
  micro : Nat
  tz : Option Int
deriving DecidableEq, Repr

/-- Numeric value of a digit run. -/
def digitsVal (ds : List Char) : Nat :=
  ds.foldl (fun a c => a * 10 + (c.toNat - 48)) 0

/-- Split off the maximal leading digit run. -/
def spanDigits (cs : List Char) : List Char × List Char :=
  (cs.takeWhile Char.isDigit, cs.dropWhile Char.isDigit)

/-- Django pads the captured microsecond digits to six with `ljust(6, '0')`. -/
def microVal (ds : List Char) : Nat :=
  digitsVal ((ds.take 6) ++ List.replicate (6 - (ds.take 6).length) '0')

/-- The optional timezone tail `(Z|[+-]\d{2}(?::?\d{2})?)?$` of the regex. -/
def pdTz (cs : List Char) : Option (Option Int) :=
  match cs with
  | [] => some none
  | ['Z'] => some (some 0)
  | c :: rest =>
    if c = '+' ∨ c = '-' then
      let sign : Int := if c = '+' then 1 else -1
      let (ds, rest2) := spanDigits rest
      match ds, rest2 with
      | [a, b], [] => some (some (sign * (digitsVal [a, b] * 60)))
      | [a, b, c2, d2], [] =>
          some (some (sign * (digitsVal [a, b] * 60 + digitsVal [c2, d2])))
      | [a, b], ':' :: rest3 =>
          let (ds2, rest4) := spanDigits rest3
          match ds2, rest4 with
          | [e, f], [] => some (some (sign * (digitsVal [a, b] * 60 + digitsVal [e, f])))
          | _, _ => none
      | _, _ => none
    else none

/-- The optional `:seconds[.micro]` group followed by the timezone tail. -/
def pdRest (cs : List Char) : Option (Nat × Nat × Option Int) :=
  match cs with
  | ':' :: r =>
    let (ss, r2) := spanDigits r
    if ss.length = 1 ∨ ss.length = 2 then
      match r2 with
      | c :: r3 =>
        if c = '.' ∨ c = ',' then
          let (us, r4) := spanDigits r3
          if 1 ≤ us.length ∧ us.length ≤ 12 then
            match pdTz r4 with
            | some tz => some (digitsVal ss, microVal us, tz)
            | none => none
          else none
        else
          match pdTz r2 with
          | some tz => some (digitsVal ss, 0, tz)
          | none => none
      | [] => some (digitsVal ss, 0, none)
    else none
  | _ =>
    match pdTz cs with
    | some tz => some (0, 0, tz)
    | none => none

/-- `django.utils.dateparse.parse_datetime`, on an exploded string. -/
def parse_datetime_chars (cs : List Char) : Option DT :=
  let (ys, r1) := spanDigits cs
  match r1 with
  | '-' :: r2 =>
    if ys.length = 4 then
      let (ms, r3) := spanDigits r2
      match r3 with
      | '-' :: r4 =>
        if ms.length = 1 ∨ ms.length = 2 then
          let (ds, r5) := spanDigits r4
          if ds.length = 1 ∨ ds.length = 2 then
            match r5 with
            | sep :: r6 =>
              if sep = 'T' ∨ sep = ' ' then
                let (hs, r7) := spanDigits r6
                match r7 with
                | ':' :: r8 =>
                  if hs.length = 1 ∨ hs.length = 2 then
                    let (mins, r9) := spanDigits r8
                    if mins.length = 1 ∨ mins.length = 2 then
                      match pdRest r9 with
                      | some (sec, mic, tz) =>
                          some ⟨digitsVal ys, digitsVal ms, digitsVal ds,
                                digitsVal hs, digitsVal mins, sec, mic, tz⟩
                      | none => none
                    else none
                  else none
                | _ => none
              else none
            | [] => none
          else none
        else none
      | _ => none
    else none
  | _ => none

/-- `django.utils.dateparse.parse_datetime`. -/
def parse_datetime (s : String) : Option DT :=
  parse_datetime_chars s.toList

/-- Python's `s.replace(' ', '')`: drop every space character. -/
def pyReplaceSpace (s : String) : String :=
  String.mk (s.toList.filter (fun c => c ≠ ' '))

example : parse_datetime "2020-01-01T00:00+00:00" =
    some ⟨2020, 1, 1, 0, 0, 0, 0, some 0⟩ := by decide

example : parse_datetime (pyReplaceSpace "2020-01-01 00:00 +00:00") = none := by decide

example : parse_datetime (pyReplaceSpace "2016-07-18T11:04:53 -10:00") =
    some ⟨2016, 7, 18, 11, 4, 53, 0, some (-600)⟩ := by decide

/-! ## Data model (`models.py`) -/

/-- One record of the organization (companies) JSON file:
`{index: integer, company: string}`. -/
structure CompanyRec where
  index : Int
  company : String
deriving DecidableEq, Repr

/-- One record of the population (people) JSON file.  `index` is popped in
Pass 1, `guid`/`company_id`/`gender`/`eyeColor`/`favouriteFood`/`tags`/
`friends`/`registered` are transformed in Pass 2, the remaining scalars are
passed to `People(**person)` unchanged.  Each `friends` entry carries the
friend's source-local `index`. -/
structure PersonRec where
  index : Int
  guid : String
  name : String
  company_id : Int
  gender : String
  eyeColor : String
  favouriteFood : List String
  tags : List String
  friends : List Int
  registered : String
  _id : String
  has_died : Bool
  balance : String
  picture : String
  age : Int
  email : String
  phone : String
  address : String
  about : String
  greeting : String
deriving DecidableEq, Repr

/-- A `Company` row: uuid primary key + unique name. -/
structure Company where
  id : ObjId
  name : String
deriving DecidableEq, Repr

/-- A `People` row.  Foreign keys (`eye_color`, `gender`, `company`) are the
referenced rows' ids, as in the Django instance's `__dict__`
(`eye_color_id` etc.).  `registered` is an `Option DT` because
`parse_datetime` can return `None`; a row can only be *saved* with
`registered = some _` (the column is NOT NULL).  `tags`, `favourite_food`
and `friends` are the row's many-to-many id sets (the through tables keyed
by this row's unique id). -/
structure Person where
  id : ObjId
  _id : String
  guid : String
  name : String
  eye_color : ObjId
  gender : ObjId
  company : ObjId
  has_died : Bool
  balance : String
  picture : String
  age : Int
  email : String
  phone : String
  address : String
  about : String
  registered : Option DT
  greeting : String
  tags : List ObjId
  favourite_food : List ObjId
  friends : List ObjId
  is_active : Bool
  created_at : Time
  updated_at : Time
deriving DecidableEq, Repr

/-- The persistent store.  The four dimension tables (`Gender`, `EyeColor`,
`Tag`, `Food`) are rows of (id, unique natural-key string).  `ingested` is
the `IngestedFiles` table: pairs of file fingerprints (see `get_hash`). -/
structure Store where
  companies : List Company
  genders : List (ObjId × String)
  eyeColors : List (ObjId × String)
  tags : List (ObjId × String)
  foods : List (ObjId × String)
  people : List Person
  ingested : List (List CompanyRec × List PersonRec)
  nextId : ObjId
  clock : Time
deriving DecidableEq, Repr

/-- The errors a run can abort with: a failed `assert` in
`ingest_companies`, a `KeyError` from a dict lookup in `ingest_people`, and
the `IntegrityError` raised when saving a `People` row whose `registered`
is `None` (NOT NULL column). -/
inductive IngestError where
  | assertionError
  | keyError
  | integrityError
deriving DecidableEq, Repr

/-- `People.__eq__` from `models.py`: compares the instances' `__dict__`
minus `['created_at', 'updated_at', 'id', '_state']`.  The `__dict__` of a
Django instance holds every concrete column (including `_id`, `guid`,
`is_active` and the `*_id` foreign keys) but no many-to-many field, so the
relation lists are *not* compared here — `ingest_people` compares them
separately as sets. -/
def people_eq (a b : Person) : Bool :=
  a._id == b._id && a.guid == b.guid && a.name == b.name &&
  a.eye_color == b.eye_color && a.gender == b.gender && a.company == b.company &&
  a.has_died == b.has_died && a.balance == b.balance && a.picture == b.picture &&
  a.age == b.age && a.email == b.email && a.phone == b.phone &&
  a.address == b.address && a.about == b.about && a.registered == b.registered &&
  a.greeting == b.greeting && a.is_active == b.is_active

/-! ## Dict helpers -/

/-- Read a Python dict modelled as an insertion-ordered association list:
a later assignment to the same key overwrites, so a read returns the last
binding. -/
def dget [BEq α] (l : List (α × β)) (k : α) : Option β :=
  List.lookup k l.reverse

/-- Python's `set()` equality on two lists. -/
def sameSet [BEq α] (xs ys : List α) : Bool :=
  xs.all (fun x => ys.contains x) && ys.all (fun y => xs.contains y)

/-- The keys of a Python dict in insertion order: first occurrences kept. -/
def uniqKeys : List String → List String
  | [] => []
  | x :: xs => x :: (uniqKeys xs).filter (fun y => y ≠ x)

/-- Look every value up in an association list, failing (`KeyError`) when
one is absent: `[lookup[v] for v in vs]`. -/
def mapLookup [BEq α] (vs : List α) (lookup : List (α × β)) : Option (List β) :=
  match vs with
  | [] => some []
  | v :: rest =>
    match List.lookup v lookup with
    | none => none
    | some b =>
      match mapLookup rest lookup with
      | none => none
      | some bs => some (b :: bs)

/-- `[people_index_uuid[friend['index']] for friend in person['friends']]` —
same as `mapLookup` but reading with dict (last-binding) semantics. -/
def mapDget [BEq α] (vs : List α) (lookup : List (α × β)) : Option (List β) :=
  match vs with
  | [] => some []
  | v :: rest =>
    match dget lookup v with
    | none => none
    | some b =>
      match mapDget rest lookup with
      | none => none
      | some bs => some (b :: bs)

/-! ## `create_lookup` -/

/-- `create_lookup(object_model, field_values, lookup_field, existing_lookup)`.

The dimension table is the `object_model`'s row list; `lookup` is the
(possibly pre-seeded) Python dict from natural-key value to row id.  For
each value not already a key of the dict, `get_or_create` either finds the
row with that unique field value or creates a fresh one.  Returns the grown
table, the grown lookup, and the id counter.  (The source's redundant
`this_item.save()` after a create re-saves the same row and is a no-op.) -/
def create_lookup (field_values : List String) (table : List (ObjId × String))
    (lookup : List (String × ObjId)) (nextId : ObjId) :
    List (ObjId × String) × List (String × ObjId) × ObjId :=
  match field_values with
  | [] => (table, lookup, nextId)
  | v :: vs =>
    match List.lookup v lookup with
    | some _ => create_lookup vs table lookup nextId
    | none =>
      match table.find? (fun r => r.2 == v) with
      | some r => create_lookup vs table ((v, r.1) :: lookup) nextId
      | none => create_lookup vs ((nextId, v) :: table) ((v, nextId) :: lookup) (nextId + 1)

/-! ## `ingest_companies` -/

/-- One iteration of the company get-or-create loop.  The name lookup is
built from the companies of the store as it was *before* the loop
(`s0`), exactly as `company_name_lookup` is in the source. -/
def companies_step (s0 : Store) (acc : Store × List (Int × ObjId)) (rec : CompanyRec) :
    Store × List (Int × ObjId) :=
  match s0.companies.find? (fun c => c.name == rec.company) with
  | some c => (acc.1, acc.2 ++ [(rec.index, c.id)])
  | none =>
    let c : Company := ⟨acc.1.nextId, rec.company⟩
    ({ acc.1 with companies := acc.1.companies ++ [c], nextId := acc.1.nextId + 1 },
     acc.2 ++ [(rec.index, c.id)])

/-- `ingest_companies(filename)`.

Builds a name → row lookup from the companies already in the store, asserts
that the file's indexes and names are each pairwise distinct (Python:
`len(xs) == len(set(xs))`; either failure raises `AssertionError` before
any write), then get-or-creates each company by exact name against the
*pre-existing* rows and returns the source-local index → company lookup. -/
def ingest_companies (recs : List CompanyRec) (s : Store) :
    Except IngestError (Store × List (Int × ObjId)) :=
  if ((recs.map (fun r => r.index)).dedup.length = recs.length ∧
      (recs.map (fun r => r.company)).dedup.length = recs.length) then
    .ok (recs.foldl (companies_step s) (s, []))
  else .error .assertionError

/-! ## `ingest_people` -/

/-- The per-run context of Pass 2: the organization index lookup and the
Pass-1 harvested dimension lookups plus the index → guid map. -/
structure P2Ctx where
  company_lookup : List (Int × ObjId)
  foods_lookup : List (String × ObjId)
  tags_lookup : List (String × ObjId)
  gender_lookup : List (String × ObjId)
  eye_color_lookup : List (String × ObjId)
  people_index_uuid : List (Int × String)
deriving Repr

/-- Pass-2 folding state: the store, the deferred
`person_friends_combos` (new row id, resolved friend guid list), and the
first error if the run has aborted. -/
structure P2St where
  store : Store
  combos : List (ObjId × List String)
  err : Option IngestError
deriving Repr

/-- `People(**person)`: instantiate the candidate row.  Field defaults are
evaluated at instantiation: a fresh uuid `id` is minted and
`created_at`/`updated_at` are stamped with the current time even if the
instance is never saved. -/
def mk_candidate (rec : PersonRec) (cid gid eid : ObjId) (registered : Option DT)
    (st : Store) : Person :=
  { id := st.nextId, _id := rec._id, guid := rec.guid, name := rec.name,
    eye_color := eid, gender := gid, company := cid, has_died := rec.has_died,
    balance := rec.balance, picture := rec.picture, age := rec.age,
    email := rec.email, phone := rec.phone, address := rec.address,
    about := rec.about, registered := registered, greeting := rec.greeting,
    tags := [], favourite_food := [], friends := [],
    is_active := true, created_at := st.clock, updated_at := st.clock }

/-- `[friend.guid for friend in existing_person.friends.all()]`: the guids
of the rows the existing version's friend edges point to (the related
manager does not filter by `is_active`). -/
def existing_friend_guids (people : List Person) (ex : Person) : List String :=
  ex.friends.filterMap (fun fid => (people.find? (fun p => p.id == fid)).map (fun p => p.guid))

/-- The reference-resolution prefix of a Pass-2 iteration, in source
order: favourite foods, tags, friend indexes → guids, then
`company_lookup[person.pop('company_id') - 1]`, gender, eye color.  Every
failure is a `KeyError` on a dict lookup, raised before any write of this
iteration. -/
def resolve_refs (ctx : P2Ctx) (rec : PersonRec) :
    Option (List ObjId × List ObjId × List String × ObjId × ObjId × ObjId) :=
  match mapLookup rec.favouriteFood ctx.foods_lookup with
  | none => none
  | some food_ids =>
  match mapLookup rec.tags ctx.tags_lookup with
  | none => none
  | some tag_ids =>
  match mapDget rec.friends ctx.people_index_uuid with
  | none => none
  | some friend_guids =>
  match dget ctx.company_lookup (rec.company_id - 1) with
  | none => none
  | some cid =>
  match List.lookup rec.gender ctx.gender_lookup with
  | none => none
  | some gid =>
  match List.lookup rec.eyeColor ctx.eye_color_lookup with
  | none => none
  | some eid => some (food_ids, tag_ids, friend_guids, cid, gid, eid)

/-- One iteration of the Pass-2 `for person in people` loop.  A prior error
short-circuits the rest of the loop (the Python exception aborts the run;
whatever was written before it remains written).

Changed-record branch: the source executes
`existing_person.updated_at = timezone.now()`,
`existing_person.active = False`, `existing_person.save()`.  The second
assignment does NOT touch the `is_active` column: the model's boolean field
is `is_active` (models.py:75), while `active` is the `OnlyActiveManager`
class attribute (models.py:80) — a non-data descriptor, so the assignment
merely shadows it with a junk instance attribute that `save()` ignores.
The persisted effect of the three lines is therefore *only* the
`updated_at` stamp; the old row stays active. -/
def pass2_step (ctx : P2Ctx) (acc : P2St) (rec : PersonRec) : P2St :=
  if acc.err.isSome then acc else
  match resolve_refs ctx rec with
  | none => { acc with err := some .keyError }
  | some (food_ids, tag_ids, friend_guids, cid, gid, eid) =>
  let registered := parse_datetime (pyReplaceSpace rec.registered)
  let cand := mk_candidate rec cid gid eid registered acc.store
  let st1 := { acc.store with nextId := acc.store.nextId + 1, clock := acc.store.clock + 1 }
  let person_query := st1.people.filter (fun p => p.is_active && p.guid == cand.guid)
  match person_query.head? with
  | some existing =>
    let existing_foods := existing.favourite_food
    let existing_tags := existing.tags
    let existing_friends := existing_friend_guids st1.people existing
    if people_eq cand existing && sameSet existing_foods food_ids &&
        sameSet existing_friends friend_guids && sameSet existing_tags tag_ids then
      { acc with store := st1 }
    else
      let t := st1.clock
      let st2 := { st1 with
                   clock := st1.clock + 1
                   people := st1.people.map (fun p =>
                     if p.id == existing.id then { p with updated_at := t } else p) }
      match registered with
      | none => { acc with store := st2, err := some .integrityError }
      | some _ =>
        let newRow := { cand with tags := tag_ids, favourite_food := food_ids }
        { store := { st2 with people := st2.people ++ [newRow] },
          combos := acc.combos ++ [(cand.id, friend_guids)], err := none }
  | none =>
    match registered with
    | none => { acc with store := st1, err := some .integrityError }
    | some _ =>
      let newRow := { cand with tags := tag_ids, favourite_food := food_ids }
      { store := { st1 with people := st1.people ++ [newRow] },
        combos := acc.combos ++ [(cand.id, friend_guids)], err := none }

/-- `[friend.id for friend in People.active.filter(guid__in=friends)]`:
the storage identities of the current active rows whose guid is among the
given external identifiers. -/
def resolveIds (st : Store) (fg : List String) : List ObjId :=
  (st.people.filter (fun p => p.is_active && fg.contains p.guid)).map (fun p => p.id)

/-- One iteration of the Pass-3 friend-linking loop:
`person.friends.set([friend.id for friend in People.active.filter(guid__in=friends)])`. -/
def pass3_step (st : Store) (c : ObjId × List String) : Store :=
  { st with people := st.people.map (fun p =>
      if p.id == c.1 then { p with friends := resolveIds st c.2 } else p) }

/-- Pass 3: for each recorded (row id, friend guid list) pair, resolve the
guids to the *current active* rows and replace that row's friend edge set
with exactly the resolved ids. -/
def pass3 (combos : List (ObjId × List String)) (s : Store) : Store :=
  combos.foldl pass3_step s

/-- The outcome of Pass 1: the per-run context and the store grown by the
dimension-table writes. -/
structure P1Out where
  ctx : P2Ctx
  s1 : Store
deriving Repr

/-- Pass 1: the index → guid map and the harvested dimension lookups,
resolved through `create_lookup` in source order (foods, tags, genders,
eye colors). -/
def pass1 (recs : List PersonRec) (company_lookup : List (Int × ObjId))
    (s : Store) : P1Out :=
  let people_index_uuid := recs.map (fun r => (r.index, r.guid))
  let foodsK := uniqKeys (recs.flatMap (fun r => r.favouriteFood))
  let tagsK := uniqKeys (recs.flatMap (fun r => r.tags))
  let gendersK := uniqKeys (recs.map (fun r => r.gender))
  let eyecolorsK := uniqKeys (recs.map (fun r => r.eyeColor))
  let fr := create_lookup foodsK s.foods [] s.nextId
  let tr := create_lookup tagsK s.tags [] fr.2.2
  let gr := create_lookup gendersK s.genders [] tr.2.2
  let er := create_lookup eyecolorsK s.eyeColors [] gr.2.2
  { ctx := ⟨company_lookup, fr.2.1, tr.2.1, gr.2.1, er.2.1, people_index_uuid⟩
    s1 := { s with
            foods := fr.1
            tags := tr.1
            genders := gr.1
            eyeColors := er.1
            nextId := er.2.2 } }

/-- `ingest_people(filename, company_lookup)`.

Pass 1 builds the index → guid map and harvests the distinct dimension
values.  Pass 2 reconciles each record in file order.  Pass 3 links
friends.  Returns the final store and the error the run aborted with, if
any (on an abort the partial store is what the database holds; Pass 3
never runs). -/
def ingest_people (recs : List PersonRec) (company_lookup : List (Int × ObjId))
    (s : Store) : Store × Option IngestError :=
  let o := pass1 recs company_lookup s
  let r := recs.foldl (pass2_step o.ctx) ⟨o.s1, [], none⟩
  match r.err with
  | some e => (r.store, some e)
  | none => (pass3 r.combos r.store, none)

/-! ## `get_hash` and `ingest_data` -/

/-- `get_hash(filename)`: the md5 digest of the file's bytes.  Modelled as
the (parsed) file content itself: the claims depend only on identical files
yielding identical digests (and md5 collisions being negligible). -/
def get_hash_companies (content : List CompanyRec) : List CompanyRec := content

/-- `get_hash` for the people file; see `get_hash_companies`. -/
def get_hash_people (content : List PersonRec) : List PersonRec := content

/-- `ingest_data()`: the orchestrator.  Fingerprints both files; if the
pair is already in `IngestedFiles`, returns immediately.  Otherwise runs
`ingest_companies` then `ingest_people` and, only on full success, appends
the fingerprint pair.  Returns the resulting store and the aborting error,
if any (an aborted run keeps whatever was written before the failure and
records no snapshot). -/
def ingest_data (companyFile : List CompanyRec) (peopleFile : List PersonRec)
    (s : Store) : Store × Option IngestError :=
  let ch := get_hash_companies companyFile
  let ph := get_hash_people peopleFile
  if s.ingested.contains (ch, ph) then (s, none)
  else
    match ingest_companies companyFile s with
    | .error e => (s, some e)
    | .ok (s1, company_lookup) =>
      match ingest_people peopleFile company_lookup s1 with
      | (s2, some e) => (s2, some e)
      | (s2, none) => ({ s2 with ingested := s2.ingested ++ [(ch, ph)] }, none)

/-! ## Concrete fixtures -/

/-- A store with all tables empty. -/
def emptyStore : Store :=
  { companies := [], genders := [], eyeColors := [], tags := [], foods := [],
    people := [], ingested := [], nextId := 0, clock := 0 }

/-- A population record with a parseable `registered` value, used as a base
for the concrete scenarios. -/
def baseRec : PersonRec :=
  { index := 1, guid := "guid-1", name := "A", company_id := 1,
    gender := "female", eyeColor := "brown", favouriteFood := [], tags := [],
    friends := [], registered := "2020-01-01T00:00 +00:00", _id := "x1",
    has_died := false, balance := "$0.00", picture := "", age := 30,
    email := "", phone := "", address := "", about := "", greeting := "hello" }

/-! ## Lemmas about `create_lookup` -/

/-- Whatever `create_lookup` does, the id counter never decreases. -/
theorem create_lookup_nextId_le (vs : List String) (table : List (ObjId × String))
    (lookup : List (String × ObjId)) (n : ObjId) :
    n ≤ (create_lookup vs table lookup n).2.2 := by
  induction vs generalizing table lookup n with
  | nil => simp [create_lookup]
  | cons v vs ih =>
    unfold create_lookup
    cases hl : List.lookup v lookup with
    | some _ => exact ih table lookup n
    | none =>
      cases hf : table.find? (fun r => r.2 == v) with
      | some r => exact ih table ((v, r.1) :: lookup) n
      | none =>
        exact Nat.le_trans (Nat.le_succ n) (ih ((n, v) :: table) ((v, n) :: lookup) (n + 1))

/-- Association-list lookup skips a head with a different key. -/
theorem lookup_cons_ne {α β : Type} [BEq α] [LawfulBEq α] {a k : α} (b : β)
    (l : List (α × β)) (h : a ≠ k) :
    List.lookup a ((k, b) :: l) = List.lookup a l := by
  have hb : (a == k) = false := beq_eq_false_iff_ne.2 h
  simp [List.lookup, hb]

/-- Association-list lookup finds a head with the same key. -/
theorem lookup_cons_eq {α β : Type} [BEq α] [LawfulBEq α] (a : α) (b : β)
    (l : List (α × β)) :
    List.lookup a ((a, b) :: l) = some b := by
  simp [List.lookup]

/-- The natural-key values present after a `create_lookup` call: the values
that were already in the table, plus every requested value that the
pre-seeded dict did not already claim. -/
theorem create_lookup_mem_iff (vs : List String) (table : List (ObjId × String))
    (lookup : List (String × ObjId)) (n : ObjId) (v : String) :
    v ∈ (create_lookup vs table lookup n).1.map Prod.snd ↔
      v ∈ table.map Prod.snd ∨ (v ∈ vs ∧ List.lookup v lookup = none) := by
  induction vs generalizing table lookup n with
  | nil => simp [create_lookup]
  | cons x xs ih =>
    unfold create_lookup
    cases hl : List.lookup x lookup with
    | some i =>
      rw [ih]
      by_cases hvx : v = x
      · subst hvx; simp [hl]
      · simp [hvx]
    | none =>
      cases hf : table.find? (fun r => r.2 == x) with
      | some r =>
        have hrmem : r ∈ table := List.mem_of_find?_eq_some hf
        have hrx : r.2 = x := by simpa using List.find?_some hf
        rw [ih]
        by_cases hvx : v = x
        · subst hvx
          have hvt : v ∈ table.map Prod.snd := List.mem_map.2 ⟨r, hrmem, hrx⟩
          simp [hvt]
        · rw [lookup_cons_ne _ _ hvx]
          simp [hvx]
      | none =>
        rw [ih]
        by_cases hvx : v = x
        · subst hvx
          rw [lookup_cons_eq]
          simp [hl]
        · rw [lookup_cons_ne _ _ hvx]
          simp [hvx]

/-- `create_lookup` never creates a row for a value that already has one:
distinctness of the unique column is preserved. -/
theorem create_lookup_nodup (vs : List String) (table : List (ObjId × String))
    (lookup : List (String × ObjId)) (n : ObjId)
    (hnd : (table.map Prod.snd).Nodup) :
    ((create_lookup vs table lookup n).1.map Prod.snd).Nodup := by
  induction vs generalizing table lookup n with
  | nil => simpa [create_lookup] using hnd
  | cons x xs ih =>
    unfold create_lookup
    cases hl : List.lookup x lookup with
    | some i => exact ih table lookup n hnd
    | none =>
      cases hf : table.find? (fun r => r.2 == x) with
      | some r => exact ih table ((x, r.1) :: lookup) n hnd
      | none =>
        refine ih ((n, x) :: table) ((x, n) :: lookup) (n + 1) ?_
        have hx : x ∉ table.map Prod.snd := by
          intro hmem
          obtain ⟨r, hr, hrx⟩ := List.mem_map.1 hmem
          have := List.find?_eq_none.1 hf r hr
          simp [hrx] at this
        exact List.nodup_cons.2 ⟨hx, hnd⟩

/-- When every requested value is already claimed by the dict or present in
the table, `create_lookup` writes nothing: the table comes back unchanged
(so does the id counter). -/
theorem create_lookup_no_writes (vs : List String) (table : List (ObjId × String))
    (lookup : List (String × ObjId)) (n : ObjId)
    (h : ∀ v ∈ vs, (List.lookup v lookup).isSome ∨ v ∈ table.map Prod.snd) :
    (create_lookup vs table lookup n).1 = table ∧
    (create_lookup vs table lookup n).2.2 = n := by
  induction vs generalizing table lookup n with
  | nil => simp [create_lookup]
  | cons x xs ih =>
    unfold create_lookup
    cases hl : List.lookup x lookup with
    | some i =>
      exact ih table lookup n (fun v hv => h v (List.mem_cons_of_mem x hv))
    | none =>
      have hx : x ∈ table.map Prod.snd := by
        rcases h x (List.mem_cons_self x xs) with hs | ht
        · rw [hl] at hs; simp at hs
        · exact ht
      obtain ⟨r, hr, hrx⟩ := List.mem_map.1 hx
      cases hf : table.find? (fun q => q.2 == x) with
      | none =>
        have := List.find?_eq_none.1 hf r hr
        simp [hrx] at this
      | some r2 =>
        refine ih table ((x, r2.1) :: lookup) n (fun v hv => ?_)
        rcases h v (List.mem_cons_of_mem x hv) with hs | ht
        · left; rw [List.lookup_cons]; cases hvx : v == x <;> simp [hs]
        · right; exact ht

/-- C9.  The reference lookup builder (`create_lookup`) performs exactly
one store write per genuinely new natural-key value — after the call the
table's values are the old values plus the requested values the pre-seeded
mapping did not cover, still pairwise distinct — and zero writes for values
that already exist; a second call with the same values performs zero
additional writes. -/
theorem C9_create_lookup_writes (vs : List String) (table : List (ObjId × String))
    (lookup : List (String × ObjId)) (n : ObjId)
    (hnd : (table.map Prod.snd).Nodup) :
    ((create_lookup vs table lookup n).1.map Prod.snd).Nodup ∧
    (∀ v, v ∈ (create_lookup vs table lookup n).1.map Prod.snd ↔
      v ∈ table.map Prod.snd ∨ (v ∈ vs ∧ List.lookup v lookup = none)) ∧
    ((∀ v ∈ vs, (List.lookup v lookup).isSome ∨ v ∈ table.map Prod.snd) →
      (create_lookup vs table lookup n).1 = table) ∧
    (create_lookup vs (create_lookup vs table lookup n).1 lookup
        (create_lookup vs table lookup n).2.2).1 =
      (create_lookup vs table lookup n).1 := by
  refine ⟨create_lookup_nodup vs table lookup n hnd,
          fun v => create_lookup_mem_iff vs table lookup n v,
          fun h => (create_lookup_no_writes vs table lookup n h).1, ?_⟩
  refine (create_lookup_no_writes vs _ lookup _ (fun v hv => ?_)).1
  cases hl : List.lookup v lookup with
  | some i => simp
  | none =>
    right
    exact (create_lookup_mem_iff vs table lookup n v).2 (Or.inr ⟨hv, hl⟩)

/-- Witness for C9 at a concrete input: one pre-seeded value, one value
already in the table, one genuinely new value. -/
theorem C9_create_lookup_writes_witness :
    (([(7, "b")] : List (ObjId × String)).map Prod.snd).Nodup ∧
    ((create_lookup ["a", "b", "c", "a"] [(7, "b")] [("c", 9)] 10).1.map Prod.snd).Nodup ∧
    (∀ v, v ∈ (create_lookup ["a", "b", "c", "a"] [(7, "b")] [("c", 9)] 10).1.map Prod.snd ↔
      v ∈ ([(7, "b")] : List (ObjId × String)).map Prod.snd ∨
        (v ∈ ["a", "b", "c", "a"] ∧ List.lookup v [("c", 9)] = none)) ∧
    ((∀ v ∈ ["a", "b", "c", "a"], (List.lookup v [("c", 9)]).isSome ∨
        v ∈ ([(7, "b")] : List (ObjId × String)).map Prod.snd) →
      (create_lookup ["a", "b", "c", "a"] [(7, "b")] [("c", 9)] 10).1 = [(7, "b")]) ∧
    (create_lookup ["a", "b", "c", "a"]
        (create_lookup ["a", "b", "c", "a"] [(7, "b")] [("c", 9)] 10).1 [("c", 9)]
        (create_lookup ["a", "b", "c", "a"] [(7, "b")] [("c", 9)] 10).2.2).1 =
      (create_lookup ["a", "b", "c", "a"] [(7, "b")] [("c", 9)] 10).1 := by
  have h := C9_create_lookup_writes ["a", "b", "c", "a"] [(7, "b")] [("c", 9)] 10 (by decide)
  exact ⟨by decide, h.1, h.2.1, h.2.2.1, h.2.2.2⟩

/-! ## C8: duplicate organization names or indexes abort before any write -/

/-- Python's `len(xs) == len(set(xs))` is false exactly when `xs` has a
duplicate. -/
theorem dedup_length_ne_of_not_nodup {α : Type} [DecidableEq α] {xs : List α}
    (h : ¬ xs.Nodup) : xs.dedup.length ≠ xs.length := by
  intro hlen
  exact h (by
    have heq : xs.dedup = xs := (xs.dedup_sublist).eq_of_length hlen
    simpa [heq] using xs.nodup_dedup)

/-- C8.  If the organization file contains two records with the same index
or two with the same name, the run fails with the loader's validation
(assertion) error and the store is returned exactly as it was: nothing is
created or modified.  (The fingerprint-pair hypothesis rules out the
skip path, in which the loader never runs at all.) -/
theorem C8_duplicate_company_fails (recs : List CompanyRec) (pf : List PersonRec)
    (s : Store)
    (hdup : ¬ (recs.map (fun r => r.index)).Nodup ∨
            ¬ (recs.map (fun r => r.company)).Nodup)
    (hskip : ¬ s.ingested.contains (get_hash_companies recs, get_hash_people pf)) :
    ingest_data recs pf s = (s, some .assertionError) := by
  have hcomp : ingest_companies recs s = .error .assertionError := by
    unfold ingest_companies
    rw [if_neg]
    rcases hdup with h | h
    · exact fun hc => dedup_length_ne_of_not_nodup h (by
        rw [hc.1, List.length_map])
    · exact fun hc => dedup_length_ne_of_not_nodup h (by
        rw [hc.2, List.length_map])
  unfold ingest_data
  rw [if_neg hskip, hcomp]

/-- Witness for C8: two organizations named "Acme" with distinct indexes. -/
theorem C8_duplicate_company_fails_witness :
    (¬ (([⟨0, "Acme"⟩, ⟨1, "Acme"⟩] : List CompanyRec).map (fun r => r.index)).Nodup ∨
     ¬ (([⟨0, "Acme"⟩, ⟨1, "Acme"⟩] : List CompanyRec).map (fun r => r.company)).Nodup) ∧
    ingest_data [⟨0, "Acme"⟩, ⟨1, "Acme"⟩] [baseRec] emptyStore =
      (emptyStore, some .assertionError) :=
  ⟨Or.inr (by decide),
   C8_duplicate_company_fails [⟨0, "Acme"⟩, ⟨1, "Acme"⟩] [baseRec] emptyStore
     (Or.inr (by decide)) (by decide)⟩

/-! ## C4: the orchestrator is idempotent on identical file pairs -/

/-- C4.  If a run of the orchestrator on a file pair completes without
error, running it again on the same pair is a no-op: the fingerprint pair
is found recorded, the orchestrator returns immediately, and the store is
bit-for-bit the one the first run produced. -/
theorem C4_orchestrator_idempotent (cf : List CompanyRec) (pf : List PersonRec)
    (s s' : Store) (h : ingest_data cf pf s = (s', none)) :
    ingest_data cf pf s' = (s', none) := by
  have hmem : s'.ingested.contains (get_hash_companies cf, get_hash_people pf) := by
    unfold ingest_data at h
    by_cases hc : s.ingested.contains (get_hash_companies cf, get_hash_people pf)
    · rw [if_pos hc] at h
      cases h
      exact hc
    · rw [if_neg hc] at h
      cases hcomp : ingest_companies cf s with
      | error e =>
        rw [hcomp] at h
        simp at h
      | ok r =>
        obtain ⟨s1, lk⟩ := r
        rw [hcomp] at h
        simp only [] at h
        cases hp : ingest_people pf lk s1 with
        | mk s2 oerr =>
          cases oerr with
          | some e =>
            rw [hp] at h
            simp at h
          | none =>
            rw [hp] at h
            simp only [Prod.mk.injEq] at h
            rw [← h.1]
            simp
  unfold ingest_data
  rw [if_pos hmem]

/-- Witness for C4: a concrete successful first run, re-run on its result. -/
theorem C4_orchestrator_idempotent_witness :
    ingest_data [⟨0, "Alpha"⟩, ⟨1, "Beta"⟩] [baseRec] emptyStore =
      ((ingest_data [⟨0, "Alpha"⟩, ⟨1, "Beta"⟩] [baseRec] emptyStore).1, none) ∧
    ingest_data [⟨0, "Alpha"⟩, ⟨1, "Beta"⟩] [baseRec]
        (ingest_data [⟨0, "Alpha"⟩, ⟨1, "Beta"⟩] [baseRec] emptyStore).1 =
      ((ingest_data [⟨0, "Alpha"⟩, ⟨1, "Beta"⟩] [baseRec] emptyStore).1, none) :=
  ⟨by decide,
   C4_orchestrator_idempotent [⟨0, "Alpha"⟩, ⟨1, "Beta"⟩] [baseRec] emptyStore
     (ingest_data [⟨0, "Alpha"⟩, ⟨1, "Beta"⟩] [baseRec] emptyStore).1 (by decide)⟩

/-! ## Shape lemmas for the Pass-2 step

Each lemma characterises one branch of `pass2_step` under hypotheses naming
the branch conditions (resolution outcome, query outcome, comparison
outcome, parse outcome). -/

/-- A failed reference resolution turns into a `KeyError` with no write. -/
theorem pass2_step_keyerror (ctx : P2Ctx) (acc : P2St) (rec : PersonRec)
    (hE : acc.err = none) (hres : resolve_refs ctx rec = none) :
    pass2_step ctx acc rec = { acc with err := some .keyError } := by
  unfold pass2_step
  rw [hE, hres]
  rfl

/-- No active row carries the record's guid and the timestamp parses: the
candidate is saved as a new active row with its relations, and recorded for
deferred friend-linking. -/
theorem pass2_step_new (ctx : P2Ctx) (acc : P2St) (rec : PersonRec)
    (food_ids tag_ids : List ObjId) (friend_guids : List String)
    (cid gid eid : ObjId) (dt : DT)
    (hE : acc.err = none)
    (hres : resolve_refs ctx rec = some (food_ids, tag_ids, friend_guids, cid, gid, eid))
    (hreg : parse_datetime (pyReplaceSpace rec.registered) = some dt)
    (hq : acc.store.people.filter (fun p => p.is_active && p.guid == rec.guid) = []) :
    pass2_step ctx acc rec =
      { store := { acc.store with
          nextId := acc.store.nextId + 1
          clock := acc.store.clock + 1
          people := acc.store.people ++
            [{ mk_candidate rec cid gid eid (some dt) acc.store with
               tags := tag_ids, favourite_food := food_ids }] }
        combos := acc.combos ++ [(acc.store.nextId, friend_guids)]
        err := none } := by
  unfold pass2_step
  rw [hE, hres]
  simp only [Option.isSome_none, Bool.false_eq_true, if_false, mk_candidate, hreg]
  rw [show (fun (p : Person) => p.is_active && p.guid == rec.guid) =
        fun p => p.is_active && p.guid == rec.guid from rfl]
  simp only [hq, List.head?_nil]

/-- An active row with the record's guid exists and every compared field
and relation set matches: nothing is written, nothing is recorded. -/
theorem pass2_step_unchanged (ctx : P2Ctx) (acc : P2St) (rec : PersonRec)
    (food_ids tag_ids : List ObjId) (friend_guids : List String)
    (cid gid eid : ObjId) (existing : Person)
    (hE : acc.err = none)
    (hres : resolve_refs ctx rec = some (food_ids, tag_ids, friend_guids, cid, gid, eid))
    (hq : (acc.store.people.filter (fun p => p.is_active && p.guid == rec.guid)).head? =
      some existing)
    (heq : (people_eq (mk_candidate rec cid gid eid
              (parse_datetime (pyReplaceSpace rec.registered)) acc.store) existing &&
            sameSet existing.favourite_food food_ids &&
            sameSet (existing_friend_guids acc.store.people existing) friend_guids &&
            sameSet existing.tags tag_ids) = true) :
    pass2_step ctx acc rec =
      { store := { acc.store with
          nextId := acc.store.nextId + 1
          clock := acc.store.clock + 1 }
        combos := acc.combos
        err := none } := by
  unfold pass2_step
  rw [hE, hres]
  simp only [Option.isSome_none, Bool.false_eq_true, if_false, mk_candidate] at heq ⊢
  simp only [hq]
  simp [heq]

/-- An active row with the record's guid exists and some compared field or
relation set differs, and the timestamp parses: the existing row gets its
`updated_at` stamped with the current time — but stays active, because
`existing_person.active = False` only shadows the manager attribute — and
the candidate is saved as a second active row with its relations, recorded
for deferred friend-linking. -/
theorem pass2_step_changed (ctx : P2Ctx) (acc : P2St) (rec : PersonRec)
    (food_ids tag_ids : List ObjId) (friend_guids : List String)
    (cid gid eid : ObjId) (dt : DT) (existing : Person)
    (hE : acc.err = none)
    (hres : resolve_refs ctx rec = some (food_ids, tag_ids, friend_guids, cid, gid, eid))
    (hreg : parse_datetime (pyReplaceSpace rec.registered) = some dt)
    (hq : (acc.store.people.filter (fun p => p.is_active && p.guid == rec.guid)).head? =
      some existing)
    (heq : (people_eq (mk_candidate rec cid gid eid (some dt) acc.store) existing &&
            sameSet existing.favourite_food food_ids &&
            sameSet (existing_friend_guids acc.store.people existing) friend_guids &&
            sameSet existing.tags tag_ids) = false) :
    pass2_step ctx acc rec =
      { store := { acc.store with
          nextId := acc.store.nextId + 1
          clock := acc.store.clock + 2
          people := (acc.store.people.map (fun p =>
              if p.id == existing.id then
                { p with updated_at := acc.store.clock + 1 }
              else p)) ++
            [{ mk_candidate rec cid gid eid (some dt) acc.store with
               tags := tag_ids, favourite_food := food_ids }] }
        combos := acc.combos ++ [(acc.store.nextId, friend_guids)]
        err := none } := by
  unfold pass2_step
  rw [hE, hres]
  simp only [Option.isSome_none, Bool.false_eq_true, if_false, mk_candidate, hreg] at heq ⊢
  simp only [hq]
  simp [heq]

/-- No active row carries the record's guid but the timestamp does not
parse: saving the candidate raises an integrity error; the people table is
left as it was. -/
theorem pass2_step_reg_none_new (ctx : P2Ctx) (acc : P2St) (rec : PersonRec)
    (food_ids tag_ids : List ObjId) (friend_guids : List String)
    (cid gid eid : ObjId)
    (hE : acc.err = none)
    (hres : resolve_refs ctx rec = some (food_ids, tag_ids, friend_guids, cid, gid, eid))
    (hreg : parse_datetime (pyReplaceSpace rec.registered) = none)
    (hq : acc.store.people.filter (fun p => p.is_active && p.guid == rec.guid) = []) :
    pass2_step ctx acc rec =
      { store := { acc.store with
          nextId := acc.store.nextId + 1
          clock := acc.store.clock + 1 }
        combos := acc.combos
        err := some .integrityError } := by
  unfold pass2_step
  rw [hE, hres]
  simp only [Option.isSome_none, Bool.false_eq_true, if_false, mk_candidate, hreg]
  simp only [hq, List.head?_nil]

/-- An active row with the record's guid exists, some compared field
differs (with an unparseable timestamp the `registered` comparison itself
differs whenever the stored row has one), and the timestamp does not parse:
the existing row still gets its `updated_at` stamp — that write happened
before the failing save — and then the candidate's save aborts the run. -/
theorem pass2_step_reg_none_changed (ctx : P2Ctx) (acc : P2St) (rec : PersonRec)
    (food_ids tag_ids : List ObjId) (friend_guids : List String)
    (cid gid eid : ObjId) (existing : Person)
    (hE : acc.err = none)
    (hres : resolve_refs ctx rec = some (food_ids, tag_ids, friend_guids, cid, gid, eid))
    (hreg : parse_datetime (pyReplaceSpace rec.registered) = none)
    (hq : (acc.store.people.filter (fun p => p.is_active && p.guid == rec.guid)).head? =
      some existing)
    (heq : (people_eq (mk_candidate rec cid gid eid none acc.store) existing &&
            sameSet existing.favourite_food food_ids &&
            sameSet (existing_friend_guids acc.store.people existing) friend_guids &&
            sameSet existing.tags tag_ids) = false) :
    pass2_step ctx acc rec =
      { store := { acc.store with
          nextId := acc.store.nextId + 1
          clock := acc.store.clock + 2
          people := acc.store.people.map (fun p =>
              if p.id == existing.id then
                { p with updated_at := acc.store.clock + 1 }
              else p) }
        combos := acc.combos
        err := some .integrityError } := by
  unfold pass2_step
  rw [hE, hres]
  simp only [Option.isSome_none, Bool.false_eq_true, if_false, mk_candidate, hreg] at heq ⊢
  simp only [hq]
  simp [heq]

/-- A prior error short-circuits the step. -/
theorem pass2_step_prior_err (ctx : P2Ctx) (acc : P2St) (rec : PersonRec)
    (hE : acc.err.isSome = true) :
    pass2_step ctx acc rec = acc := by
  unfold pass2_step
  rw [hE]
  rfl

/-! ## Fixtures for the Pass-2 step witnesses -/

/-- A Pass-2 context resolving `baseRec`: the organization-index lookup
maps index 0 (= `baseRec.company_id - 1`) to company 5. -/
def ctx0 : P2Ctx :=
  { company_lookup := [(0, 5)], foods_lookup := [], tags_lookup := [],
    gender_lookup := [("female", 6)], eye_color_lookup := [("brown", 7)],
    people_index_uuid := [(1, "guid-1")] }

/-- An active stored row with `baseRec`'s guid whose name differs from the
incoming record's. -/
def existing0 : Person :=
  { id := 3, _id := "x1", guid := "guid-1", name := "OLD", eye_color := 7,
    gender := 6, company := 5, has_died := false, balance := "$0.00",
    picture := "", age := 30, email := "", phone := "", address := "",
    about := "", registered := some ⟨2020, 1, 1, 0, 0, 0, 0, some 0⟩,
    greeting := "hello", tags := [], favourite_food := [], friends := [],
    is_active := true, created_at := 0, updated_at := 0 }

/-- `existing0` with the name matching `baseRec`: agrees with the incoming
record on every compared field and every relation set. -/
def existing1 : Person := { existing0 with name := "A" }

/-- A Pass-2 state whose store holds a single active row. -/
def acc0 : P2St :=
  { store := { emptyStore with people := [existing0], nextId := 10, clock := 5 },
    combos := [], err := none }

/-- `acc0` with the matching row instead. -/
def acc1 : P2St :=
  { store := { emptyStore with people := [existing1], nextId := 10, clock := 5 },
    combos := [], err := none }

/-- A Pass-2 state over an empty people table. -/
def acc2 : P2St :=
  { store := { emptyStore with nextId := 10, clock := 5 }, combos := [], err := none }

/-! ## C5: a differing record is meant to deactivate the old version

The source's changed-record branch (data_ingestion.py:161-175) documents
the intent — "shut out the old record and commit the new one" — but
`existing_person.active = False` (line 167) assigns the manager-shadowing
non-field attribute, not the `is_active` column, so the persisted row stays
active; only the `updated_at` stamp and the new row reach the store. -/

/-- C5 (code-bug exhibit).  At the failing input — an active stored
version (`existing0`, name "OLD", id 3) re-ingested as `baseRec`
(name "A") — the step takes the replace branch: it stamps the old row's
`updated_at` (0 → 6) and saves the candidate as a new row (id 10) with its
relations, recording it for deferred linking, exactly as the claim says —
but the old row's `is_active` remains `true`: the claimed
"active set to false" write never reaches the store, leaving two active
rows with the same guid. -/
theorem C5_stamp_without_deactivation :
    acc0.store.people.map (fun p => (p.id, p.guid, p.is_active, p.updated_at)) =
      [(3, "guid-1", true, 0)] ∧
    (pass2_step ctx0 acc0 baseRec).err = none ∧
    (pass2_step ctx0 acc0 baseRec).store.people.map
        (fun p => (p.id, p.guid, p.is_active, p.updated_at)) =
      [(3, "guid-1", true, 6), (10, "guid-1", true, 5)] ∧
    (pass2_step ctx0 acc0 baseRec).combos = [(10, [])] := by
  decide

/-! ## C6: an unchanged record leaves the store untouched -/

/-- C6.  If the incoming record matches the existing active version on
every compared scalar and foreign-key field and on the tag, favourite-food
and friend sets, the step writes nothing: the people table is unchanged (so
no new row and no `updated_at` change) and nothing is recorded for friend
linking. -/
theorem C6_unchanged_record_untouched (ctx : P2Ctx) (acc : P2St) (rec : PersonRec)
    (food_ids tag_ids : List ObjId) (friend_guids : List String)
    (cid gid eid : ObjId) (existing : Person)
    (hE : acc.err = none)
    (hres : resolve_refs ctx rec = some (food_ids, tag_ids, friend_guids, cid, gid, eid))
    (hq : (acc.store.people.filter (fun p => p.is_active && p.guid == rec.guid)).head? =
      some existing)
    (heq : (people_eq (mk_candidate rec cid gid eid
              (parse_datetime (pyReplaceSpace rec.registered)) acc.store) existing &&
            sameSet existing.favourite_food food_ids &&
            sameSet (existing_friend_guids acc.store.people existing) friend_guids &&
            sameSet existing.tags tag_ids) = true) :
    (pass2_step ctx acc rec).store.people = acc.store.people ∧
    (pass2_step ctx acc rec).combos = acc.combos ∧
    (pass2_step ctx acc rec).err = none := by
  rw [pass2_step_unchanged ctx acc rec food_ids tag_ids friend_guids cid gid eid
    existing hE hres hq heq]
  exact ⟨rfl, rfl, rfl⟩

/-- Witness for C6: `baseRec` against an identical stored version. -/
theorem C6_unchanged_record_untouched_witness :
    acc1.err = none ∧
    resolve_refs ctx0 baseRec = some ([], [], [], 5, 6, 7) ∧
    (acc1.store.people.filter (fun p => p.is_active && p.guid == baseRec.guid)).head? =
      some existing1 ∧
    (people_eq (mk_candidate baseRec 5 6 7
        (parse_datetime (pyReplaceSpace baseRec.registered)) acc1.store) existing1 &&
      sameSet existing1.favourite_food [] &&
      sameSet (existing_friend_guids acc1.store.people existing1) [] &&
      sameSet existing1.tags []) = true ∧
    ((pass2_step ctx0 acc1 baseRec).store.people = acc1.store.people ∧
     (pass2_step ctx0 acc1 baseRec).combos = acc1.combos ∧
     (pass2_step ctx0 acc1 baseRec).err = none) :=
  ⟨by decide, by decide, by decide, by decide,
   C6_unchanged_record_untouched ctx0 acc1 baseRec [] [] [] 5 6 7 existing1
     (by decide) (by decide) (by decide) (by decide)⟩

/-! ## C1: organization resolution uses `company_id - 1` -/

/-- C1 (amended).  With every other reference resolving and the timestamp
parsing, Pass 2 links the new Individual to the organization that the
index→identity mapping associates with `company_id - 1` — not with
`company_id` itself — and a `company_id` such that `company_id - 1` is
absent from the mapping fails the run with a `KeyError` before writing
anything. -/
theorem C1_company_resolution (ctx : P2Ctx) (acc : P2St) (rec : PersonRec)
    (food_ids tag_ids : List ObjId) (friend_guids : List String)
    (gid eid : ObjId) (dt : DT)
    (hE : acc.err = none)
    (hf : mapLookup rec.favouriteFood ctx.foods_lookup = some food_ids)
    (ht : mapLookup rec.tags ctx.tags_lookup = some tag_ids)
    (hfr : mapDget rec.friends ctx.people_index_uuid = some friend_guids)
    (hg : List.lookup rec.gender ctx.gender_lookup = some gid)
    (he : List.lookup rec.eyeColor ctx.eye_color_lookup = some eid)
    (hreg : parse_datetime (pyReplaceSpace rec.registered) = some dt)
    (hq : acc.store.people.filter (fun p => p.is_active && p.guid == rec.guid) = []) :
    (∀ cid, dget ctx.company_lookup (rec.company_id - 1) = some cid →
      ∃ newRow, (pass2_step ctx acc rec).store.people = acc.store.people ++ [newRow] ∧
        newRow.guid = rec.guid ∧ newRow.is_active = true ∧ newRow.company = cid ∧
        (pass2_step ctx acc rec).err = none) ∧
    (dget ctx.company_lookup (rec.company_id - 1) = none →
      (pass2_step ctx acc rec).err = some .keyError ∧
      (pass2_step ctx acc rec).store = acc.store) := by
  constructor
  · intro cid hcid
    have hres : resolve_refs ctx rec = some (food_ids, tag_ids, friend_guids, cid, gid, eid) := by
      unfold resolve_refs
      rw [hf, ht, hfr, hcid, hg, he]
    refine ⟨{ mk_candidate rec cid gid eid (some dt) acc.store with
              tags := tag_ids, favourite_food := food_ids }, ?_⟩
    rw [pass2_step_new ctx acc rec food_ids tag_ids friend_guids cid gid eid dt
      hE hres hreg hq]
    exact ⟨rfl, rfl, rfl, rfl, rfl⟩
  · intro hcid
    have hres : resolve_refs ctx rec = none := by
      unfold resolve_refs
      rw [hf, ht, hfr, hcid]
    rw [pass2_step_keyerror ctx acc rec hE hres]
    exact ⟨rfl, rfl⟩

/-- Witness for C1 (amended): `baseRec` (`company_id = 1`) over the mapping
`[(0, 5)]`, which resolves `1 - 1 = 0` to organization 5. -/
theorem C1_company_resolution_witness :
    acc2.err = none ∧
    mapLookup baseRec.favouriteFood ctx0.foods_lookup = some [] ∧
    mapLookup baseRec.tags ctx0.tags_lookup = some [] ∧
    mapDget baseRec.friends ctx0.people_index_uuid = some [] ∧
    List.lookup baseRec.gender ctx0.gender_lookup = some 6 ∧
    List.lookup baseRec.eyeColor ctx0.eye_color_lookup = some 7 ∧
    parse_datetime (pyReplaceSpace baseRec.registered) =
      some ⟨2020, 1, 1, 0, 0, 0, 0, some 0⟩ ∧
    acc2.store.people.filter (fun p => p.is_active && p.guid == baseRec.guid) = [] ∧
    ((∀ cid, dget ctx0.company_lookup (baseRec.company_id - 1) = some cid →
      ∃ newRow, (pass2_step ctx0 acc2 baseRec).store.people =
          acc2.store.people ++ [newRow] ∧
        newRow.guid = baseRec.guid ∧ newRow.is_active = true ∧ newRow.company = cid ∧
        (pass2_step ctx0 acc2 baseRec).err = none) ∧
    (dget ctx0.company_lookup (baseRec.company_id - 1) = none →
      (pass2_step ctx0 acc2 baseRec).err = some .keyError ∧
      (pass2_step ctx0 acc2 baseRec).store = acc2.store)) :=
  ⟨by decide, by decide, by decide, by decide, by decide, by decide, by decide, by decide,
   C1_company_resolution ctx0 acc2 baseRec [] [] [] 6 7
     ⟨2020, 1, 1, 0, 0, 0, 0, some 0⟩
     (by decide) (by decide) (by decide) (by decide) (by decide) (by decide)
     (by decide) (by decide)⟩

/-- C1 counterexample.  Organization file with indexes 0 ("Alpha") and 1
("Beta"); a population record with `company_id = 1`.  The run succeeds and
links the Individual to "Alpha" — the organization whose source-local index
is 0 = `company_id - 1` — and not to "Beta", the organization whose index
equals the record's `company_id` value.  So the organization linked is not
the one whose index equals `company_id`. -/
theorem C1_cex :
    baseRec.company_id = 1 ∧
    (ingest_data [⟨0, "Alpha"⟩, ⟨1, "Beta"⟩] [baseRec] emptyStore).2 = none ∧
    (ingest_data [⟨0, "Alpha"⟩, ⟨1, "Beta"⟩] [baseRec] emptyStore).1.companies =
      [⟨0, "Alpha"⟩, ⟨1, "Beta"⟩] ∧
    (ingest_data [⟨0, "Alpha"⟩, ⟨1, "Beta"⟩] [baseRec]
        emptyStore).1.people.map (fun p => p.company) = [0] ∧
    (0 : ObjId) ≠ 1 := by
  decide

/-! ## C2: space-separated registration timestamps never parse -/

/-- `spanDigits` takes a leading digit. -/
theorem spanDigits_cons_digit {c : Char} (h : c.isDigit = true) (cs : List Char) :
    spanDigits (c :: cs) = (c :: (spanDigits cs).1, (spanDigits cs).2) := by
  simp [spanDigits, List.takeWhile_cons, List.dropWhile_cons, h]

/-- `spanDigits` stops at a leading non-digit. -/
theorem spanDigits_cons_nondigit {c : Char} (h : c.isDigit = false) (cs : List Char) :
    spanDigits (c :: cs) = ([], c :: cs) := by
  simp [spanDigits, List.takeWhile_cons, List.dropWhile_cons, h]

/-- C2 (amended).  A `registered` value of the spec's documented shape
"YYYY-MM-DD HH:MM ±HH:MM" — with a *space* between date and time, and any
extra internal whitespace — never parses in Pass 2: `replace(' ', '')`
deletes the date–time separator along with the rest of the whitespace, and
Django's `parse_datetime` requires a `T` or a space there, so it returns
`None` (after which saving the row fails the run).  The hypothesis fixes
the whitespace-stripped form of the value; the digit positions are
arbitrary digits and the offset sign is `+` or `-`. -/
theorem C2_space_separated_unparseable (s : String)
    (y1 y2 y3 y4 m1 m2 d1 d2 h1 h2 n1 n2 sg t1 t2 t3 t4 : Char)
    (hy1 : y1.isDigit = true) (hy2 : y2.isDigit = true) (hy3 : y3.isDigit = true)
    (hy4 : y4.isDigit = true) (hm1 : m1.isDigit = true) (hm2 : m2.isDigit = true)
    (hd1 : d1.isDigit = true) (hd2 : d2.isDigit = true) (hh1 : h1.isDigit = true)
    (hh2 : h2.isDigit = true) (hsg : sg = '+' ∨ sg = '-')
    (hshape : (pyReplaceSpace s).toList =
      [y1, y2, y3, y4, '-', m1, m2, '-', d1, d2, h1, h2, ':', n1, n2,
       sg, t1, t2, ':', t3, t4]) :
    parse_datetime (pyReplaceSpace s) = none := by
  have hdash : ('-').isDigit = false := by decide
  have hcolon : (':').isDigit = false := by decide
  unfold parse_datetime
  rw [hshape]
  unfold parse_datetime_chars
  simp only [spanDigits_cons_digit, spanDigits_cons_nondigit, hy1, hy2, hy3, hy4,
    hm1, hm2, hd1, hd2, hh1, hh2, hdash, hcolon]
  simp

/-- Witness for C2 (amended) at the concrete value
"2020-01-01 00:00 +00:00". -/
theorem C2_space_separated_unparseable_witness :
    (('2' : Char).isDigit = true ∧ ('0' : Char).isDigit = true ∧
     (('+' : Char) = '+' ∨ ('+' : Char) = '-') ∧
     (pyReplaceSpace "2020-01-01 00:00 +00:00").toList =
       ['2', '0', '2', '0', '-', '0', '1', '-', '0', '1', '0', '0', ':', '0', '0',
        '+', '0', '0', ':', '0', '0']) ∧
    parse_datetime (pyReplaceSpace "2020-01-01 00:00 +00:00") = none :=
  ⟨⟨by decide, by decide, Or.inl rfl, by decide⟩,
   C2_space_separated_unparseable "2020-01-01 00:00 +00:00"
     '2' '0' '2' '0' '0' '1' '0' '1' '0' '0' '0' '0' '+' '0' '0' '0' '0'
     (by decide) (by decide) (by decide) (by decide) (by decide) (by decide)
     (by decide) (by decide) (by decide) (by decide) (Or.inl rfl) (by decide)⟩

/-- C2 counterexample.  The well-formed value "2020-01-01 00:00 +00:00"
(exactly the documented "YYYY-MM-DD HH:MM ±HH:MM" shape) does not parse
after whitespace-stripping, and the run over a record carrying it fails
with an integrity error instead of succeeding. -/
theorem C2_cex :
    parse_datetime (pyReplaceSpace "2020-01-01 00:00 +00:00") = none ∧
    (ingest_people [{ baseRec with registered := "2020-01-01 00:00 +00:00" }]
        [(0, 5)] emptyStore).2 = some .integrityError := by
  decide

/-! ## C3: at most one active row per guid — violated by the code

The spec's invariant ("at most one Individual row with a given external
identifier may have active = true") is what the changed-record branch
*intends* to maintain ("shut out the old record", data_ingestion.py:161),
but `existing_person.active = False` never reaches the `is_active` column,
so a changed re-ingestion leaves the old row active and adds a second
active row with the same guid. -/

/-- The predicate "an active row for guid `g`" — the `People.active`
queryset filtered on the guid. -/
def activeGuid (g : String) : Person → Bool :=
  fun p => p.is_active && p.guid == g

/-- The uniqueness invariant: for every external identifier, at most one
row is active. -/
def atMostOneActive (people : List Person) : Prop :=
  ∀ g : String, people.countP (activeGuid g) ≤ 1

/-- Pass 1 writes only dimension tables: people and clock are untouched,
and the id counter does not decrease. -/
theorem pass1_s1 (recs : List PersonRec) (lk : List (Int × ObjId)) (s : Store) :
    (pass1 recs lk s).s1.people = s.people ∧
    (pass1 recs lk s).s1.clock = s.clock ∧
    s.nextId ≤ (pass1 recs lk s).s1.nextId := by
  refine ⟨rfl, rfl, ?_⟩
  unfold pass1
  simp only []
  calc s.nextId
      ≤ (create_lookup (uniqKeys (recs.flatMap (fun r => r.favouriteFood)))
          s.foods [] s.nextId).2.2 := create_lookup_nextId_le _ _ _ _
    _ ≤ _ := by
        calc (create_lookup (uniqKeys (recs.flatMap (fun r => r.favouriteFood)))
              s.foods [] s.nextId).2.2
            ≤ (create_lookup (uniqKeys (recs.flatMap (fun r => r.tags))) s.tags []
                (create_lookup (uniqKeys (recs.flatMap (fun r => r.favouriteFood)))
                  s.foods [] s.nextId).2.2).2.2 := create_lookup_nextId_le _ _ _ _
          _ ≤ _ := Nat.le_trans (create_lookup_nextId_le _ _ _ _)
                (create_lookup_nextId_le _ _ _ _)

/-- C3 (code-bug exhibit).  A store holding exactly one active row for
"guid-1" (the invariant holds), re-ingested with a record for "guid-1"
whose name changed: the run succeeds, yet afterwards *two* rows for
"guid-1" are active — the supposedly superseded row was never deactivated —
so the invariant the claim asserts is violated by the code. -/
theorem C3_two_active_rows_after_changed_reingestion :
    ({ emptyStore with people := [existing0], nextId := 10, clock := 5 }
        : Store).people.countP (activeGuid "guid-1") = 1 ∧
    (ingest_people [baseRec] [(0, 5)]
      { emptyStore with people := [existing0], nextId := 10, clock := 5 }).2 = none ∧
    (ingest_people [baseRec] [(0, 5)]
      { emptyStore with people := [existing0], nextId := 10, clock := 5 }).1.people.countP
        (activeGuid "guid-1") = 2 ∧
    ¬ atMostOneActive (ingest_people [baseRec] [(0, 5)]
      { emptyStore with people := [existing0], nextId := 10, clock := 5 }).1.people :=
  ⟨by decide, by decide, by decide,
   fun h => by
    have h1 := h "guid-1"
    revert h1
    decide⟩


/-! ## C7: Pass 3 is a full replacement of the friend edge set -/

/-- A Pass-3 iteration changes neither activity nor guids nor ids, so the
resolution of any guid list is stable across it. -/
theorem pass3_step_resolveIds (st : Store) (c : ObjId × List String)
    (fg : List String) :
    resolveIds (pass3_step st c) fg = resolveIds st fg := by
  unfold resolveIds pass3_step
  simp only []
  rw [List.filter_map]
  rw [List.map_map]
  have hfil : ∀ p ∈ st.people,
      ((fun q => q.is_active && fg.contains q.guid) ∘ (fun p =>
        if p.id == c.1 then { p with friends := resolveIds st c.2 } else p)) p =
      (fun q => q.is_active && fg.contains q.guid) p := by
    intro p hp
    by_cases hid : (p.id == c.1) = true
    · simp [Function.comp, hid]
    · have hb : (p.id == c.1) = false := by simpa using hid
      simp [Function.comp, hb]
  rw [List.filter_congr (fun a ha => by rw [hfil a ha])]
  refine List.map_congr_left (fun p hp => ?_)
  by_cases hid : (p.id == c.1) = true
  · simp [Function.comp, hid]
  · have hb : (p.id == c.1) = false := by simpa using hid
    simp [Function.comp, hb]

/-- Rows whose id is targeted by no remaining combo pass through Pass 3
untouched. -/
theorem pass3_untouched (combos : List (ObjId × List String)) (s : Store)
    (pid : ObjId) (h : pid ∉ combos.map Prod.fst) :
    ∀ p' ∈ (pass3 combos s).people, p'.id = pid → p' ∈ s.people := by
  induction combos generalizing s with
  | nil => exact fun p' hp' _ => hp'
  | cons c rest ih =>
    have hne : pid ≠ c.1 := by
      intro hcontra
      exact h (by rw [List.map_cons, hcontra]; exact List.mem_cons_self _ _)
    have hrest : pid ∉ rest.map Prod.fst := by
      intro hcontra
      exact h (by rw [List.map_cons]; exact List.mem_cons_of_mem _ hcontra)
    intro p' hp' hid
    have hstep : pass3 (c :: rest) s = pass3 rest (pass3_step s c) := by
      unfold pass3
      rw [List.foldl_cons]
    rw [hstep] at hp'
    have hp1 : p' ∈ (pass3_step s c).people := ih (pass3_step s c) hrest p' hp' hid
    unfold pass3_step at hp1
    simp only [] at hp1
    obtain ⟨q, hq, hfq⟩ := List.mem_map.1 hp1
    by_cases hqid : (q.id == c.1) = true
    · rw [if_pos hqid] at hfq
      rw [← hfq] at hid
      simp only [] at hid
      rw [hid] at hqid
      simp [hne] at hqid
    · rw [if_neg hqid] at hfq
      rw [← hfq]
      exact hq

/-- C7.  For every (individual, friend-guid-list) pair recorded during
Pass 2 (row ids recorded at most once, as Pass 2 does), Pass 3 replaces
that row's friend relation set with *exactly* the storage identities of
the active rows carrying those guids in the store Pass 3 starts from — a
full replacement, so stale edges (e.g. a dropped friend C) cannot
survive. -/
theorem C7_full_replacement (combos : List (ObjId × List String)) (s : Store)
    (pid : ObjId) (fg : List String)
    (hmem : (pid, fg) ∈ combos) (hnd : (combos.map Prod.fst).Nodup) :
    ∀ p' ∈ (pass3 combos s).people, p'.id = pid →
      p'.friends = resolveIds s fg := by
  induction combos generalizing s with
  | nil => cases hmem
  | cons c rest ih =>
    have hstep : pass3 (c :: rest) s = pass3 rest (pass3_step s c) := by
      unfold pass3
      rw [List.foldl_cons]
    rw [List.map_cons, List.nodup_cons] at hnd
    rcases List.mem_cons.1 hmem with hc | hrest
    · have hcpid : c.1 = pid := by rw [← hc]
      have hcfg : c.2 = fg := by rw [← hc]
      intro p' hp' hid
      rw [hstep] at hp'
      have hpidrest : pid ∉ rest.map Prod.fst := by
        rw [← hcpid]
        exact hnd.1
      have hp1 : p' ∈ (pass3_step s c).people :=
        pass3_untouched rest (pass3_step s c) pid hpidrest p' hp' hid
      unfold pass3_step at hp1
      simp only [] at hp1
      obtain ⟨q, hq, hfq⟩ := List.mem_map.1 hp1
      by_cases hqid : (q.id == c.1) = true
      · rw [if_pos hqid] at hfq
        rw [← hfq]
        simp only []
        rw [hcfg]
      · rw [if_neg hqid] at hfq
        rw [← hfq] at hid
        rw [hid, hcpid] at hqid
        simp at hqid
    · intro p' hp' hid
      rw [hstep] at hp'
      have := ih (pass3_step s c) hrest hnd.2 p' hp' hid
      rw [pass3_step_resolveIds] at this
      exact this

/-- A three-row store for the C7 witness: an active "guid-1" row (id 4),
an active "guid-2" row (id 3), and an inactive "guid-2" row (id 9). -/
def st7 : Store :=
  { emptyStore with
    people :=
      [{ existing0 with id := 4, guid := "guid-1" },
       { existing0 with id := 3, guid := "guid-2" },
       { existing0 with id := 9, guid := "guid-2", is_active := false }]
    nextId := 10 }

/-- Witness for C7: two combos; the row with id 4 gets exactly the active
row carrying "guid-2" (id 3), not the inactive one (id 9). -/
theorem C7_full_replacement_witness :
    ((4, ["guid-2"]) ∈ [((4 : ObjId), ["guid-2"]), (3, [])]) ∧
    (([((4 : ObjId), ["guid-2"]), (3, [])].map Prod.fst).Nodup) ∧
    resolveIds st7 ["guid-2"] = [3] ∧
    (∀ p' ∈ (pass3 [((4 : ObjId), ["guid-2"]), (3, [])] st7).people, p'.id = 4 →
      p'.friends = resolveIds st7 ["guid-2"]) :=
  ⟨by decide, by decide, by decide,
   C7_full_replacement [((4 : ObjId), ["guid-2"]), (3, [])] st7 4 ["guid-2"]
     (by decide) (by decide)⟩

/-! ## C10: friend edges are rewritten only for rows written this run -/

/-- The Pass-2 frame invariant, relative to the people table and id
counter the run started from: (1) every pre-run row is still present with
its id, its friend edge list, its guid and its activity flag intact — the
only per-row write Pass 2 ever performs on an old row is the `updated_at`
stamp; (2) the id counter never went below the starting one; (3) every id
recorded for Pass-3 linking was minted during this run; (4) every row with
a pre-run id is a pre-run row — rows created this run sit at or above the
starting counter. -/
def P2Inv (people0 : List Person) (n : ObjId) (st : P2St) : Prop :=
  (∀ p ∈ people0, ∃ p' ∈ st.store.people,
     p'.id = p.id ∧ p'.friends = p.friends ∧ p'.guid = p.guid ∧
     p'.is_active = p.is_active) ∧
  n ≤ st.store.nextId ∧
  (∀ c ∈ st.combos, n ≤ c.1) ∧
  (∀ q ∈ st.store.people, q.id < n → ∃ p ∈ people0, q.id = p.id)

/-- The `updated_at` stamp keeps a row's id, friend edges, guid and
activity. -/
theorem stamp_frame (ex : Person) (t : Time) (p : Person) :
    ((fun p => if p.id == ex.id then
      { p with updated_at := t } else p) p).id = p.id ∧
    ((fun p => if p.id == ex.id then
      { p with updated_at := t } else p) p).friends = p.friends ∧
    ((fun p => if p.id == ex.id then
      { p with updated_at := t } else p) p).guid = p.guid ∧
    ((fun p => if p.id == ex.id then
      { p with updated_at := t } else p) p).is_active = p.is_active := by
  by_cases hid : (p.id == ex.id) = true
  · simp [hid]
  · have hb : (p.id == ex.id) = false := by simpa using hid
    simp [hb]

/-- One Pass-2 iteration preserves the frame invariant. -/
theorem pass2_step_inv (ctx : P2Ctx) (acc : P2St) (rec : PersonRec)
    (people0 : List Person) (n : ObjId)
    (h : P2Inv people0 n acc) :
    P2Inv people0 n (pass2_step ctx acc rec) := by
  obtain ⟨h1, h2, h3, h4⟩ := h
  cases hE : acc.err with
  | some e =>
    rw [pass2_step_prior_err ctx acc rec (by rw [hE]; rfl)]
    exact ⟨h1, h2, h3, h4⟩
  | none =>
    cases hres : resolve_refs ctx rec with
    | none =>
      rw [pass2_step_keyerror ctx acc rec hE hres]
      exact ⟨h1, h2, h3, h4⟩
    | some tup =>
      obtain ⟨food_ids, tag_ids, fg, cid, gid, eid⟩ := tup
      have h2' : n ≤ acc.store.nextId + 1 := Nat.le_trans h2 (Nat.le_succ _)
      have hnew : ∀ (nr : Person), nr.id = acc.store.nextId →
          ∀ q, q ∈ acc.store.people ++ [nr] → q.id < n → ∃ p ∈ people0, q.id = p.id := by
        intro nr hnr q hq hlt
        rcases List.mem_append.1 hq with hl | hr
        · exact h4 q hl hlt
        · have : q = nr := by simpa using hr
          rw [this, hnr] at hlt
          exact absurd hlt (Nat.not_lt.2 h2)
      have hcomb : ∀ c, c ∈ acc.combos ++ [(acc.store.nextId, fg)] → n ≤ c.1 := by
        intro c hc
        rcases List.mem_append.1 hc with hl | hr
        · exact h3 c hl
        · have : c = (acc.store.nextId, fg) := by simpa using hr
          rw [this]
          exact h2
      cases hq : (acc.store.people.filter
          (fun p => p.is_active && p.guid == rec.guid)).head? with
      | none =>
        have hq' : acc.store.people.filter
            (fun p => p.is_active && p.guid == rec.guid) = [] :=
          List.head?_eq_none_iff.1 hq
        cases hreg : parse_datetime (pyReplaceSpace rec.registered) with
        | none =>
          rw [pass2_step_reg_none_new ctx acc rec food_ids tag_ids fg cid gid eid
            hE hres hreg hq']
          exact ⟨h1, h2', h3, h4⟩
        | some dt =>
          rw [pass2_step_new ctx acc rec food_ids tag_ids fg cid gid eid dt
            hE hres hreg hq']
          refine ⟨?_, h2', hcomb, hnew _ rfl⟩
          intro p hp
          obtain ⟨p', hp', hid, hfr, hg, ha⟩ := h1 p hp
          exact ⟨p', List.mem_append_left _ hp', hid, hfr, hg, ha⟩
      | some ex =>
        by_cases hcmp : (people_eq (mk_candidate rec cid gid eid
              (parse_datetime (pyReplaceSpace rec.registered)) acc.store) ex &&
            sameSet ex.favourite_food food_ids &&
            sameSet (existing_friend_guids acc.store.people ex) fg &&
            sameSet ex.tags tag_ids) = true
        · rw [pass2_step_unchanged ctx acc rec food_ids tag_ids fg cid gid eid ex
            hE hres hq hcmp]
          exact ⟨h1, h2', h3, h4⟩
        · have hcmp' : (people_eq (mk_candidate rec cid gid eid
                (parse_datetime (pyReplaceSpace rec.registered)) acc.store) ex &&
              sameSet ex.favourite_food food_ids &&
              sameSet (existing_friend_guids acc.store.people ex) fg &&
              sameSet ex.tags tag_ids) = false := by simpa using hcmp
          have hmap1 : ∀ t : Time, ∀ p ∈ people0,
              ∃ p' ∈ acc.store.people.map (fun p => if p.id == ex.id then
                { p with updated_at := t } else p),
                p'.id = p.id ∧ p'.friends = p.friends ∧ p'.guid = p.guid ∧
                p'.is_active = p.is_active := by
            intro t p hp
            obtain ⟨p', hp', hid, hfr, hg, ha⟩ := h1 p hp
            refine ⟨_, List.mem_map_of_mem _ hp', ?_, ?_, ?_, ?_⟩
            · rw [(stamp_frame ex t p').1, hid]
            · rw [(stamp_frame ex t p').2.1, hfr]
            · rw [(stamp_frame ex t p').2.2.1, hg]
            · rw [(stamp_frame ex t p').2.2.2, ha]
          have hmap4 : ∀ t : Time, ∀ q ∈ acc.store.people.map (fun p =>
              if p.id == ex.id then
                { p with updated_at := t } else p),
              q.id < n → ∃ p ∈ people0, q.id = p.id := by
            intro t q hq hlt
            obtain ⟨q0, hq0, hfq⟩ := List.mem_map.1 hq
            have hqid : q.id = q0.id := by
              rw [← hfq]
              exact (stamp_frame ex t q0).1
            rw [hqid] at hlt ⊢
            exact h4 q0 hq0 hlt
          cases hreg : parse_datetime (pyReplaceSpace rec.registered) with
          | none =>
            rw [hreg] at hcmp'
            rw [pass2_step_reg_none_changed ctx acc rec food_ids tag_ids fg cid gid eid ex
              hE hres hreg hq hcmp']
            exact ⟨hmap1 _, h2', h3, hmap4 _⟩
          | some dt =>
            rw [hreg] at hcmp'
            rw [pass2_step_changed ctx acc rec food_ids tag_ids fg cid gid eid dt ex
              hE hres hreg hq hcmp']
            refine ⟨?_, h2', hcomb, ?_⟩
            · intro p hp
              obtain ⟨p', hp', hid, hfr, hg, ha⟩ := hmap1 (acc.store.clock + 1) p hp
              exact ⟨p', List.mem_append_left _ hp', hid, hfr, hg, ha⟩
            · intro q hq hlt
              rcases List.mem_append.1 hq with hl | hr
              · exact hmap4 (acc.store.clock + 1) q hl hlt
              · have : q = { mk_candidate rec cid gid eid (some dt) acc.store with
                    tags := tag_ids, favourite_food := food_ids } := by simpa using hr
                rw [this] at hlt
                have hcon : acc.store.nextId < n := hlt
                exact absurd hcon (Nat.not_lt.2 h2)

/-- The whole Pass-2 loop preserves the frame invariant. -/
theorem pass2_fold_inv (ctx : P2Ctx) (recs : List PersonRec)
    (people0 : List Person) (n : ObjId) (acc : P2St)
    (h : P2Inv people0 n acc) :
    P2Inv people0 n (recs.foldl (pass2_step ctx) acc) := by
  induction recs generalizing acc with
  | nil => exact h
  | cons r rest ih =>
    rw [List.foldl_cons]
    exact ih _ (pass2_step_inv ctx acc r people0 n h)

/-- Rows targeted by no combo survive Pass 3 verbatim (forward version of
`pass3_untouched`). -/
theorem pass3_keep (combos : List (ObjId × List String)) (s : Store)
    (pid : ObjId) (h : pid ∉ combos.map Prod.fst) :
    ∀ p ∈ s.people, p.id = pid → p ∈ (pass3 combos s).people := by
  induction combos generalizing s with
  | nil => exact fun p hp _ => hp
  | cons c rest ih =>
    have hne : pid ≠ c.1 := by
      intro hcontra
      exact h (by rw [List.map_cons, hcontra]; exact List.mem_cons_self _ _)
    have hrest : pid ∉ rest.map Prod.fst := by
      intro hcontra
      exact h (by rw [List.map_cons]; exact List.mem_cons_of_mem _ hcontra)
    intro p hp hid
    have hstep : pass3 (c :: rest) s = pass3 rest (pass3_step s c) := by
      unfold pass3
      rw [List.foldl_cons]
    rw [hstep]
    refine ih (pass3_step s c) hrest p ?_ hid
    unfold pass3_step
    simp only []
    have hb : (p.id == c.1) = false := by
      rw [hid]
      simpa using hne
    have : (if p.id == c.1 then { p with friends := resolveIds s c.2 } else p) = p := by
      rw [hb]
      simp
    rw [← this]
    exact List.mem_map_of_mem _ hp

/-- Every row after Pass 3 has the id of a row before Pass 3. -/
theorem pass3_ids (combos : List (ObjId × List String)) (s : Store) :
    ∀ q' ∈ (pass3 combos s).people, ∃ q ∈ s.people, q'.id = q.id := by
  induction combos generalizing s with
  | nil => exact fun q' hq' => ⟨q', hq', rfl⟩
  | cons c rest ih =>
    intro q' hq'
    have hstep : pass3 (c :: rest) s = pass3 rest (pass3_step s c) := by
      unfold pass3
      rw [List.foldl_cons]
    rw [hstep] at hq'
    obtain ⟨q1, hq1, hid1⟩ := ih (pass3_step s c) q' hq'
    unfold pass3_step at hq1
    simp only [] at hq1
    obtain ⟨q0, hq0, hfq⟩ := List.mem_map.1 hq1
    refine ⟨q0, hq0, ?_⟩
    rw [hid1, ← hfq]
    by_cases hid : (q0.id == c.1) = true
    · simp [hid]
    · have hb : (q0.id == c.1) = false := by simpa using hid
      simp [hb]

/-- C10 (amended).  A run of the population reconciler rewrites friend
relation sets only for rows it wrote in this run: every row present before
the run — in particular the active row of an individual judged unchanged —
survives with its id, friend edge list, guid and activity flag verbatim,
and those edges all point below the pre-run id counter, while every row
minted by the run (one whose id no pre-run row has) sits at or above that
counter.  Hence if an unchanged individual's friend was superseded by a
new version during the same run, the unchanged individual's edges still
reference only the friend's superseded row — which the run leaves *active*
(the line-167 "deactivation" never reaches the `is_active` column), not
inactive as intended — and never the friend's replacement row. -/
theorem C10_unchanged_rows_keep_stale_edges (recs : List PersonRec)
    (lk : List (Int × ObjId)) (s : Store)
    (hids : ∀ p ∈ s.people, p.id < s.nextId)
    (hfr : ∀ p ∈ s.people, ∀ f ∈ p.friends, f < s.nextId) :
    (∀ p ∈ s.people, ∃ p', p' ∈ (ingest_people recs lk s).1.people ∧
       p'.id = p.id ∧ p'.friends = p.friends ∧ p'.guid = p.guid ∧
       p'.is_active = p.is_active ∧ ∀ f ∈ p'.friends, f < s.nextId) ∧
    (∀ q ∈ (ingest_people recs lk s).1.people,
       (∀ p ∈ s.people, q.id ≠ p.id) → s.nextId ≤ q.id) := by
  have hinv0 : P2Inv s.people s.nextId ⟨(pass1 recs lk s).s1, [], none⟩ := by
    refine ⟨?_, (pass1_s1 recs lk s).2.2, ?_, ?_⟩
    · intro p hp
      refine ⟨p, ?_, rfl, rfl, rfl, rfl⟩
      rw [(pass1_s1 recs lk s).1]
      exact hp
    · intro c hc
      cases hc
    · intro q hq _
      refine ⟨q, ?_, rfl⟩
      rw [(pass1_s1 recs lk s).1] at hq
      exact hq
  have hinv := pass2_fold_inv (pass1 recs lk s).ctx recs s.people s.nextId
    ⟨(pass1 recs lk s).s1, [], none⟩ hinv0
  obtain ⟨i1, i2, i3, i4⟩ := hinv
  unfold ingest_people
  simp only []
  cases hr : (recs.foldl (pass2_step (pass1 recs lk s).ctx)
      ⟨(pass1 recs lk s).s1, [], none⟩).err with
  | some e =>
    simp only [hr]
    constructor
    · intro p hp
      obtain ⟨p', hp', hid, hfriends, hg, ha⟩ := i1 p hp
      refine ⟨p', hp', hid, hfriends, hg, ha, ?_⟩
      rw [hfriends]
      exact hfr p hp
    · intro q hq hnone
      by_cases hlt : q.id < s.nextId
      · obtain ⟨p, hp, hqp⟩ := i4 q hq hlt
        exact absurd hqp (hnone p hp)
      · exact Nat.le_of_not_lt hlt
  | none =>
    simp only [hr]
    constructor
    · intro p hp
      obtain ⟨p', hp', hid, hfriends, hg, ha⟩ := i1 p hp
      have hlt : p'.id < s.nextId := by
        rw [hid]
        exact hids p hp
      have hnotin : p'.id ∉ ((recs.foldl (pass2_step (pass1 recs lk s).ctx)
          ⟨(pass1 recs lk s).s1, [], none⟩).combos.map Prod.fst) := by
        intro hmem
        obtain ⟨c, hc, hcid⟩ := List.mem_map.1 hmem
        have := i3 c hc
        rw [hcid] at this
        exact absurd hlt (Nat.not_lt.2 this)
      refine ⟨p', pass3_keep _ _ p'.id hnotin p' hp' rfl, hid, hfriends, hg, ha, ?_⟩
      rw [hfriends]
      exact hfr p hp
    · intro q hq hnone
      obtain ⟨q0, hq0, hqid⟩ := pass3_ids _ _ q hq
      by_cases hlt : q0.id < s.nextId
      · obtain ⟨p, hp, hqp⟩ := i4 q0 hq0 hlt
        rw [← hqid] at hqp
        exact absurd hqp (hnone p hp)
      · rw [hqid]
        exact Nat.le_of_not_lt hlt

/-- Witness for C10: a store holding active rows below the id counter, run
through an ingestion of one differing record. -/
theorem C10_unchanged_rows_keep_stale_edges_witness :
    (∀ p ∈ st7.people, p.id < st7.nextId) ∧
    (∀ p ∈ st7.people, ∀ f ∈ p.friends, f < st7.nextId) ∧
    ((∀ p ∈ st7.people, ∃ p', p' ∈ (ingest_people [baseRec] [(0, 5)] st7).1.people ∧
       p'.id = p.id ∧ p'.friends = p.friends ∧ p'.guid = p.guid ∧
       p'.is_active = p.is_active ∧ ∀ f ∈ p'.friends, f < st7.nextId) ∧
     (∀ q ∈ (ingest_people [baseRec] [(0, 5)] st7).1.people,
       (∀ p ∈ st7.people, q.id ≠ p.id) → st7.nextId ≤ q.id)) :=
  ⟨by decide, by decide,
   C10_unchanged_rows_keep_stale_edges [baseRec] [(0, 5)] st7
     (by decide) (by decide)⟩

/-- Person A ("guid-1"), friends with source-index 2 (B). -/
def recA : PersonRec := { baseRec with index := 1, guid := "guid-1", name := "A", friends := [2] }

/-- Person B ("guid-2"), friends with source-index 1 (A). -/
def recB : PersonRec :=
  { baseRec with index := 2, guid := "guid-2", name := "B", _id := "x2", friends := [1] }

/-- A store holding one organization (id 99), for the C10 scenario. -/
def stAcme : Store := { emptyStore with companies := [⟨99, "Acme"⟩], nextId := 100 }

/-- C10 counterexample.  A and B are mutual friends; a second ingestion in
which only B's name changed leaves A judged unchanged.  Afterwards A's
friend edges still reference only B's superseded row (id 103) and not B's
replacement row (id 105) — the frame part of the claim — but that
superseded row is still *active* (`is_active = true`), so the claim's
"superseded, now-inactive row" misdescribes the program: the code never
deactivates it. -/
theorem C10_cex :
    (ingest_people [recA, recB] [(0, 99)] stAcme).2 = none ∧
    (ingest_people [recA, { recB with name := "B2" }] [(0, 99)]
      (ingest_people [recA, recB] [(0, 99)] stAcme).1).2 = none ∧
    (ingest_people [recA, { recB with name := "B2" }] [(0, 99)]
      (ingest_people [recA, recB] [(0, 99)] stAcme).1).1.people.map
        (fun p => (p.id, p.name, p.guid, p.is_active, p.friends)) =
      [(102, "A", "guid-1", true, [103]),
       (103, "B", "guid-2", true, [102]),
       (105, "B2", "guid-2", true, [102])] := by
  decide

end Forchecktoporov
